import Mathlib

/-!
Verification of the DeepReg repository sources:
* `src/src/data/loader_h5.py` — the HDF5-backed paired data loader;
* `src/deepreg/loss/image.py` — image-similarity losses.

HDF5 files are modelled as finite key/dataset association lists (HDF5 group
keys are unique, so key lists are deduplicated), Python exceptions as an
explicit error type, and tensors as row-major flat lists of rationals with an
explicit shape.  `tf`/`numpy` reduction and convolution primitives are
translated to explicit index formulas; the transcendental primitives
`tf.math.exp` / `tf.math.log` are abstract function parameters.
-/

namespace DeepReg

/-- The kinds of Python exceptions the embedded code can raise. -/
inductive PyError where
  | assertionError
  | keyError
  | indexError
  | typeError
  | valueError
  | attributeError (attr : String)
  deriving Repr, DecidableEq

instance {ε α : Type} [DecidableEq ε] [DecidableEq α] : DecidableEq (Except ε α)
  | .ok a, .ok b => decidable_of_iff (a = b) (by simp)
  | .ok _, .error _ => isFalse (by simp)
  | .error _, .ok _ => isFalse (by simp)
  | .error e, .error f => decidable_of_iff (e = f) (by simp)

/-- An HDF5 dataset: a shape and row-major contents. -/
structure Dataset where
  shape : List ℕ
  data : List ℚ
  deriving Repr, DecidableEq, Inhabited

/-- An HDF5 file: an association list from dataset keys to datasets. -/
abbrev H5File := List (String × Dataset)

/-- `SKIPPED_KEYS = ["num_important", "num_labels"]` (loader_h5.py line 8). -/
def SKIPPED_KEYS : List String := ["num_important", "num_labels"]

/-- The code point of a character. -/
def charNat (c : Char) : ℕ := c.val.toNat

/-- Lexicographic comparison of code-point sequences — Python's `<=` on
strings. -/
def lexLe : List Char → List Char → Bool
  | [], _ => true
  | _ :: _, [] => false
  | a :: as, b :: bs =>
      if charNat a < charNat b then true
      else if charNat b < charNat a then false
      else lexLe as bs

/-- Python's string ordering: lexicographic on code points. -/
def strLe (a b : String) : Prop := lexLe a.data b.data = true

instance : DecidableRel strLe := fun a b => by unfold strLe; infer_instance

/-- Python's `sorted` on a list of strings (stable ascending sort). -/
def sortStr (l : List String) : List String := List.insertionSort strLe l

/-- `get_sorted_keys` (loader_h5.py lines 91-93): the sorted list of the file's
dataset keys.  HDF5 keys are unique, hence the `dedup`. -/
def get_sorted_keys (f : H5File) : List String := sortStr (f.map Prod.fst).dedup

/-- `label_key.split("_bin")[0]`: everything before the first occurrence of
`"_bin"` (loader_h5.py line 116). -/
def stripAux : List Char → List Char
  | [] => []
  | c :: cs => if c = '_' ∧ cs.take 3 = ['b', 'i', 'n'] then [] else c :: stripAux cs

/-- `label_key.split("_bin")[0]` (loader_h5.py line 116). -/
def stripBin (s : String) : String := String.mk (stripAux s.data)

abbrev KeyDict := List (String × List String)

/-- Python dict insertion: `if k not in d: d[k] = []` followed by
`d[k].append(v)`; dicts preserve insertion order. -/
def insertAppend (d : KeyDict) (k v : String) : KeyDict :=
  match d with
  | [] => [(k, [v])]
  | (k', vs) :: rest =>
      if k' = k then (k', vs ++ [v]) :: rest else (k', vs) :: insertAppend rest k v

/-- The loop of `get_image_label_key_dict` (loader_h5.py lines 115-121) over the
sorted label keys, carrying the dict accumulator. -/
def buildDict (image_keys : List String) : List String → KeyDict → Except PyError KeyDict
  | [], d => .ok d
  | lk :: rest, d =>
      let ik := stripBin lk
      if ik ∈ SKIPPED_KEYS then buildDict image_keys rest d
      else if ik ∈ image_keys then buildDict image_keys rest (insertAppend d ik lk)
      else .error .assertionError

/-- `get_image_label_key_dict` (loader_h5.py lines 96-127). -/
def get_image_label_key_dict (image_file label_file : H5File) : Except PyError KeyDict := do
  let image_keys := get_sorted_keys image_file
  let label_keys := get_sorted_keys label_file
  let d ← buildDict image_keys label_keys []
  if sortStr (d.map Prod.fst) = image_keys then pure d else .error .assertionError

/-- `hf.get(k)` / first association-list lookup for a dataset key. -/
def h5find (f : H5File) (k : String) : Option Dataset :=
  (f.find? (fun e => e.fst == k)).map Prod.snd

/-- `hf.get(k)[()]`: fetching a dataset; `None[()]` would raise a `TypeError`. -/
def h5get (f : H5File) (k : String) : Except PyError Dataset :=
  match h5find f k with
  | some ds => .ok ds
  | none => .error .typeError

/-- Python dict subscript `d[k]`, raising `KeyError` when absent. -/
def dictGet (d : KeyDict) (k : String) : Except PyError (List String) :=
  match d.find? (fun e => e.fst == k) with
  | some e => .ok e.snd
  | none => .error .keyError

/-- `for k in moving_key_dict: assert moving_key_dict[k] == fixed_key_dict[k]`
(loader_h5.py lines 33-34): iterate the moving dict, look each key up in the
fixed dict. -/
def checkSameDict (fixed_key_dict : KeyDict) : KeyDict → Except PyError Unit
  | [] => .ok ()
  | (k, vs) :: rest => do
      let vs' ← dictGet fixed_key_dict k
      if vs = vs' then checkSameDict fixed_key_dict rest else .error .assertionError

/-- The loop of `get_image_shape` (loader_h5.py lines 138-139):
`for k in keys: assert sh == list(hf.get(k).shape)`. -/
def checkShapes (f : H5File) (sh : List ℕ) : List String → Except PyError Unit
  | [] => .ok ()
  | k :: rest =>
      match h5find f k with
      | none => .error .typeError
      | some ds => if sh = ds.shape then checkShapes f sh rest else .error .assertionError

/-- The body of `get_image_shape` after the key list is computed
(loader_h5.py lines 133-140): `keys[0]` raises `IndexError` on an empty list,
then the shared 3-D shape is checked over all keys. -/
def gisAux (f : H5File) (keys : List String) : Except PyError (List ℕ) :=
  match keys with
  | [] => .error .indexError
  | k0 :: _ =>
      match h5find f k0 with
      | none => .error .typeError
      | some ds0 =>
          if ds0.shape.length = 3 then
            match checkShapes f ds0.shape keys with
            | .ok _ => .ok ds0.shape
            | .error e => .error e
          else .error .assertionError

/-- `get_image_shape` (loader_h5.py lines 130-140). -/
def get_image_shape (f : H5File) : Except PyError (List ℕ) :=
  gisAux f (sortStr (((f.map Prod.fst).dedup).filter (fun k => !(SKIPPED_KEYS.contains k))))

/-- The state saved by `H5DataLoader.__init__` (loader_h5.py lines 53-63);
filenames stand for the files they name. -/
structure H5Loader where
  key_dict : KeyDict
  keys : List String
  moving_image_filename : H5File
  fixed_image_filename : H5File
  moving_label_filename : H5File
  fixed_label_filename : H5File
  moving_image_shape : List ℕ
  fixed_image_shape : List ℕ
  deriving Repr, DecidableEq

/-- Normalize a Python slice bound for a list of length `n`. -/
def pyIndexNorm (n : ℕ) (a : ℤ) : ℕ :=
  (max 0 (min (n : ℤ) (if a < 0 then a + n else a))).toNat

/-- Python list slice `l[a:b]`. -/
def pySlice {α : Type} (l : List α) (a b : ℤ) : List α :=
  (l.take (pyIndexNorm l.length b)).drop (pyIndexNorm l.length a)

/-- `H5DataLoader.__init__` up to and including the shape sanity checks
(loader_h5.py lines 24-44), returning the data the remainder uses. -/
def H5initStage1 (mi fi ml fl : H5File) :
    Except PyError (KeyDict × List ℕ × List ℕ) := do
  let moving_key_dict ← get_image_label_key_dict mi ml
  let fixed_key_dict ← get_image_label_key_dict fi fl
  checkSameDict fixed_key_dict moving_key_dict
  let moving_image_shape ← get_image_shape mi
  let fixed_image_shape ← get_image_shape fi
  let moving_label_shape ← get_image_shape ml
  let fixed_label_shape ← get_image_shape fl
  if moving_image_shape = moving_label_shape then
    if fixed_image_shape = fixed_label_shape then
      pure (moving_key_dict, moving_image_shape, fixed_image_shape)
    else Except.error .assertionError
  else Except.error .assertionError

/-- `H5DataLoader.__init__` (loader_h5.py lines 12-63).  `shuffleFn seed`
stands for the in-place permutation performed by Python's
`random.Random(seed).shuffle`, a deterministic function of the seed. -/
def H5DataLoader_init (shuffleFn : ℕ → List String → List String)
    (mi fi ml fl : H5File) (seed : ℕ) (shuffle : Bool) (index_start index_end : ℤ) :
    Except PyError H5Loader :=
  match H5initStage1 mi fi ml fl with
  | .error e => .error e
  | .ok (moving_key_dict, moving_image_shape, fixed_image_shape) =>
      let keys0 := sortStr (moving_key_dict.map Prod.fst)
      if 0 ≤ index_start ∧ index_end ≤ (keys0.length : ℤ) then
        let keys1 := if shuffle then shuffleFn seed keys0 else keys0
        let keys2 := pySlice keys1 index_start index_end
        .ok { key_dict := moving_key_dict, keys := keys2,
              moving_image_filename := mi, fixed_image_filename := fi,
              moving_label_filename := ml, fixed_label_filename := fl,
              moving_image_shape := moving_image_shape,
              fixed_image_shape := fixed_image_shape }
      else .error .assertionError

/-- One yielded tuple: `(moving_image, fixed_image, moving_label), fixed_label, indices`. -/
abbrev GenItem := (Dataset × Dataset × Dataset) × Dataset × List ℚ

/-- The loop body of `H5DataLoader.get_generator` (loader_h5.py lines 75-88).
`r i` is the i-th draw of the pseudo-random stream; `random.randrange(m)`
returns a value in `[0, m)`, modelled as `r i % m` (and `ValueError` on
`m = 0`). -/
def genLoop (key_dict : KeyDict) (mi fi ml fl : H5File) (r : ℕ → ℕ) :
    ℕ → List String → Except PyError (List GenItem)
  | _, [] => .ok []
  | i, image_key :: rest => do
      let vs ← dictGet key_dict image_key
      let sorted_label_keys := sortStr vs
      if sorted_label_keys.length = 0 then .error .valueError
      else
        let label_index := r i % sorted_label_keys.length
        let label_key := sorted_label_keys.getD label_index ""
        let moving_image ← h5get mi image_key
        let moving_label ← h5get ml label_key
        let fixed_image ← h5get fi image_key
        let fixed_label ← h5get fl label_key
        let tail ← genLoop key_dict mi fi ml fl r (i + 1) rest
        .ok (((moving_image, fixed_image, moving_label), fixed_label,
              [(i : ℚ), (label_index : ℚ)]) :: tail)

/-- `H5DataLoader.get_generator` (loader_h5.py lines 65-88), run to a list. -/
def get_generator (L : H5Loader) (r : ℕ → ℕ) : Except PyError (List GenItem) :=
  genLoop L.key_dict L.moving_image_filename L.fixed_image_filename
    L.moving_label_filename L.fixed_label_filename r 0 L.keys

/-! ## Tensors and the losses of `src/deepreg/loss/image.py`

A tensor is a shape together with row-major flat data; `tf` reductions over all
non-batch axes act on the per-batch-item chunks of length `inner`. -/

/-- `EPS = 1.0e-5` (image.py line 9). -/
def EPS : ℚ := 1 / 100000

structure Tensor where
  shape : List ℕ
  data : List ℚ
  deriving Repr, DecidableEq, Inhabited

/-- The batch dimension `shape[0]`. -/
def Tensor.batch (t : Tensor) : ℕ := t.shape.headD 0

/-- The number of elements per batch item, `prod(shape[1:])`. -/
def Tensor.inner (t : Tensor) : ℕ := t.shape.tail.prod

/-- Element `j` of batch item `i` in row-major order. -/
def tIdx (t : Tensor) (i j : ℕ) : ℚ := t.data.getD (i * t.inner + j) 0

/-- `tf.math.squared_difference(a, b) = (a - b)^2` elementwise. -/
def squared_difference (a b : Tensor) : Tensor :=
  ⟨a.shape, List.zipWith (fun x y => (x - y) ^ 2) a.data b.data⟩

/-- `tf.keras.layers.Flatten()`: reshape `(batch, ...)` to `(batch, prod)`. -/
def flattenK (t : Tensor) : Tensor := ⟨[t.batch, t.inner], t.data⟩

/-- `tf.reduce_mean(x, axis=1)` on a rank-2 tensor. -/
def reduceMeanAxis1 (t : Tensor) : Tensor :=
  ⟨[t.batch], (List.range t.batch).map
      (fun i => (∑ j ∈ Finset.range t.inner, tIdx t i j) / (t.inner : ℚ))⟩

/-- `SumSquaredDifference.call` (image.py lines 34-44). -/
def SumSquaredDifference_call (y_true y_pred : Tensor) : Tensor :=
  reduceMeanAxis1 (flattenK (squared_difference y_true y_pred))

/-- `tf.reduce_mean(x, axis=[1..rank-1], keepdims=True)`. -/
def reduceMeanNBKeep (x : Tensor) : Tensor :=
  ⟨x.batch :: x.shape.tail.map (fun _ => 1),
   (List.range x.batch).map (fun i => (∑ j ∈ Finset.range x.inner, tIdx x i j) / (x.inner : ℚ))⟩

/-- `tf.reduce_mean(x, axis=[1..rank-1])`. -/
def reduceMeanNB (x : Tensor) : Tensor :=
  ⟨[x.batch], (List.range x.batch).map
      (fun i => (∑ j ∈ Finset.range x.inner, tIdx x i j) / (x.inner : ℚ))⟩

/-- `tf.math.reduce_variance(x, axis=[1..rank-1])`: per-batch mean of the
squared deviation from the per-batch mean. -/
def reduceVarNB (x : Tensor) : Tensor :=
  ⟨[x.batch], (List.range x.batch).map (fun i =>
      (∑ j ∈ Finset.range x.inner,
        (tIdx x i j - (∑ j' ∈ Finset.range x.inner, tIdx x i j') / (x.inner : ℚ)) ^ 2) /
      (x.inner : ℚ))⟩

/-- Broadcast subtraction `x - m` of a `(batch, 1, ..., 1)` tensor `m`. -/
def subB (x m : Tensor) : Tensor :=
  ⟨x.shape, (List.range (x.batch * x.inner)).map
      (fun k => x.data.getD k 0 - m.data.getD (k / x.inner) 0)⟩

def mulT (a b : Tensor) : Tensor := ⟨a.shape, List.zipWith (· * ·) a.data b.data⟩

def divT (a b : Tensor) : Tensor := ⟨a.shape, List.zipWith (· / ·) a.data b.data⟩

def subT (a b : Tensor) : Tensor := ⟨a.shape, List.zipWith (· - ·) a.data b.data⟩

def absT (a : Tensor) : Tensor := ⟨a.shape, a.data.map (fun x => |x|)⟩

def addS (a : Tensor) (c : ℚ) : Tensor := ⟨a.shape, a.data.map (fun x => x + c)⟩

def divS (a : Tensor) (c : ℚ) : Tensor := ⟨a.shape, a.data.map (fun x => x / c)⟩

/-- Elementwise negation (the `-` of the loss wrappers). -/
def tneg (a : Tensor) : Tensor := ⟨a.shape, a.data.map (fun x => -x)⟩

/-- `GlobalNormalizedCrossCorrelation.call` (image.py lines 598-616). -/
def GlobalNormalizedCrossCorrelation_call (y_true y_pred : Tensor) : Tensor :=
  let mu_pred := reduceMeanNBKeep y_pred
  let mu_true := reduceMeanNBKeep y_true
  let var_pred := reduceVarNB y_pred
  let var_true := reduceVarNB y_true
  let numerator := absT (reduceMeanNB (mulT (subB y_pred mu_pred) (subB y_true mu_true)))
  divT (addS (mulT numerator numerator) EPS) (addS (mulT var_pred var_true) EPS)

/-- `tf.clip_by_value(x, 0, 1)` on a scalar. -/
def clip01 (x : ℚ) : ℚ := min (max x 0) 1

/-- `tf.clip_by_value(t, 0, 1)` elementwise. -/
def clipT (t : Tensor) : Tensor := ⟨t.shape, t.data.map clip01⟩

/-- `tf.expand_dims(t, axis=rank)`: append a trailing axis of size 1. -/
def expandLast (t : Tensor) : Tensor := ⟨t.shape ++ [1], t.data⟩

/-- `tf.linspace(0.0, 1.0, n)`. -/
def linspace01 (n : ℕ) : List ℚ :=
  (List.range n).map (fun k => if n ≤ 1 then 0 else (k : ℚ) / ((n : ℚ) - 1))

def listMean (l : List ℚ) : ℚ := l.sum / (l.length : ℚ)

/-- The body of `GlobalMutualInformation.call` after clipping (image.py lines
96-129).  `fexp` and `flog` stand for `tf.math.exp` and `tf.math.log`. -/
def GlobalMutualInformation_core (fexp flog : ℚ → ℚ) (num_bins : ℕ) (sigma_ratio : ℚ)
    (y_true y_pred : Tensor) : Tensor :=
  let bin_centers := linspace01 num_bins
  let sigma := listMean (List.zipWith (· - ·) bin_centers.tail bin_centers.dropLast) * sigma_ratio
  let preterm := 1 / (2 * sigma ^ 2)
  let b := y_true.batch
  let n := y_true.inner
  let wt : ℚ → ℕ → ℚ := fun x c => fexp (-(preterm * (x - bin_centers.getD c 0) ^ 2))
  let iaF : ℚ → ℕ → ℚ := fun x c => wt x c / (∑ c' ∈ Finset.range num_bins, wt x c')
  ⟨[b], (List.range b).map (fun i =>
      let pa := fun c => (∑ j ∈ Finset.range n, iaF (tIdx y_true i j) c) / (n : ℚ)
      let pb := fun c => (∑ j ∈ Finset.range n, iaF (tIdx y_pred i j) c) / (n : ℚ)
      let pab := fun c1 c2 =>
        (∑ j ∈ Finset.range n, iaF (tIdx y_true i j) c1 * iaF (tIdx y_pred i j) c2) / (n : ℚ)
      ∑ c1 ∈ Finset.range num_bins, ∑ c2 ∈ Finset.range num_bins,
        pab c1 c2 * flog ((pab c1 c2 + EPS) / (pa c1 * pb c2 + EPS) + EPS))⟩

/-- `GlobalMutualInformation.call` (image.py lines 77-129): rank adjustment,
the rank-5 assertion, clipping of both inputs, then the Parzen-window body. -/
def GlobalMutualInformation_call (fexp flog : ℚ → ℚ) (num_bins : ℕ) (sigma_ratio : ℚ)
    (y_true y_pred : Tensor) : Except PyError Tensor :=
  let t1 := if y_true.shape.length = 4 then expandLast y_true else y_true
  let p1 := if y_true.shape.length = 4 then expandLast y_pred else y_pred
  if t1.shape.length = 5 ∧ p1.shape.length = 5 then
    .ok (GlobalMutualInformation_core fexp flog num_bins sigma_ratio (clipT t1) (clipT p1))
  else .error .assertionError

/-- The attributes `LocalNormalizedCrossCorrelation.__init__` can assign
(image.py lines 184-215); `none` means the attribute is not in the object's
dictionary, so reading it raises `AttributeError`. -/
structure LNCCAttrs where
  kernel_fn : Option String := none
  kernel_type : Option String := none
  kernel_size : Option ℕ := none
  filters_shape : Option (List ℕ) := none
  strides : Option (List ℕ) := none
  padding : Option String := none
  kernel_vol : Option ℕ := none
  deriving Repr, DecidableEq

/-- The keys of `LocalNormalizedCrossCorrelation.kernel_fn_dict`
(image.py lines 178-182). -/
def kernel_fn_dict_keys : List String := ["gaussian", "rectangular", "triangular"]

/-- `LocalNormalizedCrossCorrelation.__init__` (image.py lines 184-215),
statement by statement: validate `kernel_type`, assign `kernel_fn` and
`kernel_type`, then build `self.filters` — which reads the attribute
`self.kernel_size`, never assigned before that point. -/
def LocalNormalizedCrossCorrelation_init (kernel_size : ℕ) (kernel_type : String) :
    Except PyError LNCCAttrs :=
  if kernel_type ∈ kernel_fn_dict_keys then
    let s1 : LNCCAttrs := { kernel_fn := some kernel_type, kernel_type := some kernel_type }
    match s1.kernel_size with
    | none => .error (.attributeError "kernel_size")
    | some ks =>
        let s2 := { s1 with filters_shape := some [ks, ks, ks, 1, 1] }
        .ok { s2 with strides := some [1, 1, 1, 1, 1], padding := some "SAME",
                      kernel_vol := some (kernel_size ^ 3) }
  else .error .valueError

/-- `LocalNormalizedCrossCorrelationLoss` defines no `__init__` of its own and
inherits the one above (image.py lines 564-568). -/
def LocalNormalizedCrossCorrelationLoss_init (kernel_size : ℕ) (kernel_type : String) :
    Except PyError LNCCAttrs :=
  LocalNormalizedCrossCorrelation_init kernel_size kernel_type

/-- `tf.nn.conv3d` with the all-ones `[k, k, k, 1, 1]` filter of
`self.filters`, stride 1 and SAME zero padding, on a single-channel rank-5
input (TF itself rejects other channel counts for this filter). -/
def convOnes (k : ℕ) (x : Tensor) : Tensor :=
  match x.shape with
  | [b, d1, d2, d3, c] =>
      let pad : ℤ := ((k - 1) / 2 : ℕ)
      let val : ℕ → ℤ → ℤ → ℤ → ℚ := fun ib q1 q2 q3 =>
        if 0 ≤ q1 ∧ q1 < (d1 : ℤ) ∧ 0 ≤ q2 ∧ q2 < (d2 : ℤ) ∧ 0 ≤ q3 ∧ q3 < (d3 : ℤ) then
          x.data.getD ((((ib * d1 + q1.toNat) * d2 + q2.toNat) * d3 + q3.toNat) * c) 0
        else 0
      ⟨[b, d1, d2, d3, 1],
       (List.range b).flatMap (fun ib =>
         (List.range d1).flatMap (fun i =>
           (List.range d2).flatMap (fun j =>
             (List.range d3).map (fun l =>
               ∑ a1 ∈ Finset.range k, ∑ a2 ∈ Finset.range k, ∑ a3 ∈ Finset.range k,
                 val ib ((i : ℤ) + a1 - pad) ((j : ℤ) + a2 - pad) ((l : ℤ) + a3 - pad)))))⟩
  | _ => ⟨[], []⟩

/-- `LocalNormalizedCrossCorrelation.call` (image.py lines 217-276), with the
intended `kernel_size` as parameter; `tf.debugging.check_numerics` is the
identity on finite values, and ℚ has no NaN/Inf. -/
def LocalNormalizedCrossCorrelation_call (kernel_size : ℕ) (y_true y_pred : Tensor) :
    Except PyError Tensor :=
  let t := if y_true.shape.length = 4 then expandLast y_true else y_true
  let p := if y_true.shape.length = 4 then expandLast y_pred else y_pred
  if t.shape.length = 5 ∧ p.shape.length = 5 then
    let t2 := mulT t t
    let p2 := mulT p p
    let tp := mulT t p
    let t_sum := convOnes kernel_size t
    let p_sum := convOnes kernel_size p
    let t2_sum := convOnes kernel_size t2
    let p2_sum := convOnes kernel_size p2
    let tp_sum := convOnes kernel_size tp
    let kernel_vol : ℚ := (kernel_size : ℚ) ^ 3
    let t_avg := divS t_sum kernel_vol
    let p_avg := divS p_sum kernel_vol
    let cross := subT tp_sum (mulT p_avg t_sum)
    let t_var := subT t2_sum (mulT t_avg t_sum)
    let p_var := subT p2_sum (mulT p_avg p_sum)
    let ncc := divT (addS (mulT cross cross) EPS) (addS (mulT t_var p_var) EPS)
    .ok (reduceMeanNB ncc)
  else .error .assertionError

/-- Modelled from the spec: `NegativeLossMixin` (in `deepreg/loss/util.py`,
which is not under `src/`) turns a similarity metric into a minimization loss
by the sign-flip pattern loss = -metric. -/
def negativeLoss (m : Tensor → Tensor → Tensor) : Tensor → Tensor → Tensor :=
  fun y_true y_pred => tneg (m y_true y_pred)

/-- Modelled from the spec: the same sign-flip wrapper for a metric whose call
can raise. -/
def negativeLossE (m : Tensor → Tensor → Except PyError Tensor) :
    Tensor → Tensor → Except PyError Tensor :=
  fun y_true y_pred => (m y_true y_pred).map tneg

/-- `GlobalMutualInformationLoss.call` (image.py lines 139-141). -/
def GlobalMutualInformationLoss_call (fexp flog : ℚ → ℚ) (num_bins : ℕ) (sigma_ratio : ℚ) :
    Tensor → Tensor → Except PyError Tensor :=
  negativeLossE (GlobalMutualInformation_call fexp flog num_bins sigma_ratio)

/-- `LocalNormalizedCrossCorrelationLoss.call` (image.py lines 564-568). -/
def LocalNormalizedCrossCorrelationLoss_call (kernel_size : ℕ) :
    Tensor → Tensor → Except PyError Tensor :=
  negativeLossE (LocalNormalizedCrossCorrelation_call kernel_size)

/-- `GlobalNormalizedCrossCorrelationLoss.call` (image.py lines 619-623). -/
def GlobalNormalizedCrossCorrelationLoss_call : Tensor → Tensor → Tensor :=
  negativeLoss GlobalNormalizedCrossCorrelation_call

/-! ## Claim-side definitions (stated from the claims' words, for comparison) -/

/-- Claim C1's stated value: the i-th entry is the SUM over all non-batch
elements of the squared difference of batch item i. -/
def ssdClaimSum (y_true y_pred : Tensor) : Tensor :=
  ⟨[y_true.batch], (List.range y_true.batch).map
      (fun i => ∑ j ∈ Finset.range y_true.inner, (tIdx y_true i j - tIdx y_pred i j) ^ 2)⟩

/-- Claim C2's key condition as literally worded: every label key other than
the bookkeeping keys themselves strips to an image key, and the set of
stripped (non-bookkeeping) label keys equals the set of image keys. -/
def claimKeyCond (image_file label_file : H5File) : Prop :=
  (∀ l ∈ get_sorted_keys label_file, l ∉ SKIPPED_KEYS →
      stripBin l ∈ get_sorted_keys image_file) ∧
  (∀ x ∈ ((get_sorted_keys label_file).filter
      (fun l => !(SKIPPED_KEYS.contains l))).map stripBin,
      x ∈ get_sorted_keys image_file) ∧
  (∀ x ∈ get_sorted_keys image_file,
      x ∈ ((get_sorted_keys label_file).filter
        (fun l => !(SKIPPED_KEYS.contains l))).map stripBin)

instance (image_file label_file : H5File) : Decidable (claimKeyCond image_file label_file) := by
  unfold claimKeyCond; infer_instance

/-- The key condition the code actually enforces: skipping is decided on the
STRIPPED key, so every label key whose stripped form is not a bookkeeping key
must strip to an image key, and the set of those stripped keys equals the set
of image keys. -/
def goodKeyPair (image_file label_file : H5File) : Prop :=
  (∀ l ∈ get_sorted_keys label_file, stripBin l ∉ SKIPPED_KEYS →
      stripBin l ∈ get_sorted_keys image_file) ∧
  (∀ x ∈ ((get_sorted_keys label_file).map stripBin).filter
      (fun x => !(SKIPPED_KEYS.contains x)),
      x ∈ get_sorted_keys image_file) ∧
  (∀ x ∈ get_sorted_keys image_file,
      x ∈ ((get_sorted_keys label_file).map stripBin).filter
        (fun x => !(SKIPPED_KEYS.contains x)))

instance (image_file label_file : H5File) : Decidable (goodKeyPair image_file label_file) := by
  unfold goodKeyPair; infer_instance

/-- Whether an embedded Python computation returned normally. -/
def isOkE {α : Type} : Except PyError α → Bool
  | .ok _ => true
  | .error _ => false

/-! ## Generic list helper lemmas -/

lemma getD_map_neg (l : List ℚ) (k : ℕ) :
    (l.map (fun x => -x)).getD k 0 = -(l.getD k 0) := by
  induction l generalizing k with
  | nil => simp
  | cons a as ih =>
      cases k with
      | zero => simp
      | succ k => simpa using ih k

lemma getD_zipWith (f : ℚ → ℚ → ℚ) (xs ys : List ℚ) (k : ℕ) (d : ℚ)
    (hx : k < xs.length) (hy : k < ys.length) :
    (List.zipWith f xs ys).getD k d = f (xs.getD k d) (ys.getD k d) := by
  induction xs generalizing ys k with
  | nil => simp at hx
  | cons a as ih =>
      cases ys with
      | nil => simp at hy
      | cons b bs =>
          cases k with
          | zero => simp
          | succ k =>
              simpa using ih bs k (by simpa using hx) (by simpa using hy)

lemma getD_map_of_lt (f : ℚ → ℚ) (l : List ℚ) (k : ℕ) (d : ℚ) (h : k < l.length) :
    (l.map f).getD k d = f (l.getD k d) := by
  induction l generalizing k with
  | nil => simp at h
  | cons a as ih =>
      cases k with
      | zero => simp
      | succ k => simpa using ih k (by simpa using h)

lemma getD_range_map (f : ℕ → ℚ) (n k : ℕ) (d : ℚ) (h : k < n) :
    (((List.range n).map f).getD k d) = f k := by
  induction n generalizing k with
  | zero => omega
  | succ n ih =>
      rcases Nat.lt_or_ge k n with h' | h'
      · rw [List.range_succ, List.map_append, List.getD_append _ _ _ _ (by simpa using h')]
        exact ih k h'
      · have hk : k = n := by omega
        subst hk
        rw [List.range_succ, List.map_append]
        rw [List.getD_append_right _ _ _ _ (by simp)]
        simp

/-! ## The string order: totality, transitivity, antisymmetry -/

lemma charNat_inj {a b : Char} (h : charNat a = charNat b) : a = b := by
  unfold charNat at h
  exact Char.ext (UInt32.ext h)

lemma lexLe_total (a b : List Char) : lexLe a b = true ∨ lexLe b a = true := by
  induction a generalizing b with
  | nil => left; rfl
  | cons x xs ih =>
      cases b with
      | nil => right; rfl
      | cons y ys =>
          by_cases h1 : charNat x < charNat y
          · left; simp [lexLe, h1]
          · by_cases h2 : charNat y < charNat x
            · right; simp [lexLe, h2]
            · rcases ih ys with h | h
              · left; simp [lexLe, h1, h2, h]
              · right; simp [lexLe, h1, h2, h]

lemma lexLe_trans (a : List Char) : ∀ b c, lexLe a b = true → lexLe b c = true →
    lexLe a c = true := by
  induction a with
  | nil => intro b c _ _; rfl
  | cons x xs ih =>
      intro b c hab hbc
      cases b with
      | nil => simp [lexLe] at hab
      | cons y ys =>
          cases c with
          | nil => simp [lexLe] at hbc
          | cons z zs =>
              by_cases hxy : charNat x < charNat y
              · by_cases hyz : charNat y < charNat z
                · simp [lexLe, lt_trans hxy hyz]
                · by_cases hzy : charNat z < charNat y
                  · simp [lexLe, hyz, hzy] at hbc
                  · have : charNat x < charNat z := by omega
                    simp [lexLe, this]
              · by_cases hyx : charNat y < charNat x
                · simp [lexLe, hxy, hyx] at hab
                · by_cases hyz : charNat y < charNat z
                  · have : charNat x < charNat z := by omega
                    simp [lexLe, this]
                  · by_cases hzy : charNat z < charNat y
                    · simp [lexLe, hyz, hzy] at hbc
                    · have h1 : lexLe xs ys = true := by simpa [lexLe, hxy, hyx] using hab
                      have h2 : lexLe ys zs = true := by simpa [lexLe, hyz, hzy] using hbc
                      have hxz : ¬ charNat x < charNat z := by omega
                      have hzx : ¬ charNat z < charNat x := by omega
                      simpa [lexLe, hxz, hzx] using ih ys zs h1 h2

lemma lexLe_antisymm (a : List Char) : ∀ b, lexLe a b = true → lexLe b a = true →
    a = b := by
  induction a with
  | nil =>
      intro b _ hba
      cases b with
      | nil => rfl
      | cons y ys => simp [lexLe] at hba
  | cons x xs ih =>
      intro b hab hba
      cases b with
      | nil => simp [lexLe] at hab
      | cons y ys =>
          by_cases hxy : charNat x < charNat y
          · simp [lexLe, hxy] at hba
            omega
          · by_cases hyx : charNat y < charNat x
            · simp [lexLe, hxy, hyx] at hab
            · have hx : x = y := charNat_inj (by omega)
              have h1 : lexLe xs ys = true := by simpa [lexLe, hxy, hyx] using hab
              have h2 : lexLe ys xs = true := by simpa [lexLe, hxy, hyx, hx] using hba
              rw [hx, ih ys h1 h2]

instance : IsTotal String strLe := ⟨fun a b => lexLe_total a.data b.data⟩

instance : IsTrans String strLe := ⟨fun a b c => lexLe_trans a.data b.data c.data⟩

instance : IsAntisymm String strLe :=
  ⟨fun a b h1 h2 => by
    cases a with
    | mk la =>
        cases b with
        | mk lb => exact congrArg String.mk (lexLe_antisymm la lb h1 h2)⟩

lemma sortStr_sorted (l : List String) : (sortStr l).Sorted strLe :=
  List.sorted_insertionSort strLe l

lemma sortStr_perm (l : List String) : List.Perm (sortStr l) l :=
  List.perm_insertionSort strLe l

lemma mem_sortStr {x : String} {l : List String} : x ∈ sortStr l ↔ x ∈ l :=
  (sortStr_perm l).mem_iff

lemma sortStr_nodup {l : List String} (h : l.Nodup) : (sortStr l).Nodup :=
  ((sortStr_perm l).nodup_iff).mpr h

/-- Two deduplicated key lists sort equal iff they have the same members. -/
lemma sortStr_eq_sortStr_iff {A B : List String} (hA : A.Nodup) (hB : B.Nodup) :
    sortStr A = sortStr B ↔ ∀ x, x ∈ A ↔ x ∈ B := by
  constructor
  · intro h x
    rw [← mem_sortStr (l := A), h, mem_sortStr]
  · intro h
    have hperm : List.Perm A B := (List.perm_ext_iff_of_nodup hA hB).mpr h
    exact List.eq_of_perm_of_sorted
      ((sortStr_perm A).trans (hperm.trans (sortStr_perm B).symm))
      (sortStr_sorted A) (sortStr_sorted B)

/-! ## Clipping lemmas -/

lemma clip01_idem (x : ℚ) : clip01 (clip01 x) = clip01 x := by
  unfold clip01
  rcases le_total x 0 with h0 | h0
  · rw [max_eq_right h0]
    norm_num
  · rw [max_eq_left h0]
    rcases le_total x 1 with h1 | h1
    · rw [min_eq_left h1, max_eq_left h0, min_eq_left h1]
    · rw [min_eq_right h1]
      norm_num

lemma clipT_clipT (t : Tensor) : clipT (clipT t) = clipT t := by
  cases t with
  | mk sh d =>
      simp only [clipT, List.map_map]
      congr 1
      exact List.map_congr_left (fun x _ => clip01_idem x)

/-! ## Claim theorems: the loss classes -/

/-- C10: every attempt to construct `LocalNormalizedCrossCorrelation` (and
hence the registered `lncc` loss, which inherits the same `__init__`) raises:
a `ValueError` for a `kernel_type` outside {rectangular, triangular, gaussian},
and otherwise an `AttributeError`, because `__init__` reads `self.kernel_size`
to build the all-ones filter tensor before any assignment to that attribute.
No instance is ever produced. -/
theorem lncc_init_always_raises (kernel_size : ℕ) (kernel_type : String) :
    LocalNormalizedCrossCorrelation_init kernel_size kernel_type =
      .error (if kernel_type ∈ kernel_fn_dict_keys then .attributeError "kernel_size"
              else .valueError)
    ∧ LocalNormalizedCrossCorrelationLoss_init kernel_size kernel_type =
      .error (if kernel_type ∈ kernel_fn_dict_keys then .attributeError "kernel_size"
              else .valueError) := by
  constructor <;>
    · by_cases h : kernel_type ∈ kernel_fn_dict_keys <;>
        simp [LocalNormalizedCrossCorrelation_init, LocalNormalizedCrossCorrelationLoss_init, h]

/-- C6 (code bug): with the documented default arguments
(`kernel_size=9`, `kernel_type="rectangular"`), constructing
`LocalNormalizedCrossCorrelation` does not succeed as the class docstring
intends; it raises an `AttributeError` on the unassigned `self.kernel_size`. -/
theorem lncc_defaults_raise_attribute_lookup :
    LocalNormalizedCrossCorrelation_init 9 "rectangular" =
      .error (.attributeError "kernel_size") := by
  rfl

/-- C5: each registered loss is the exact sign-flip of its metric:
`GlobalMutualInformationLoss`, `LocalNormalizedCrossCorrelationLoss` and
`GlobalNormalizedCrossCorrelationLoss` return the elementwise negation of
`GlobalMutualInformation`, `LocalNormalizedCrossCorrelation` and
`GlobalNormalizedCrossCorrelation` respectively on every input pair the
metric accepts. -/
theorem registered_losses_negate_metrics (fexp flog : ℚ → ℚ) (num_bins : ℕ)
    (sigma_ratio : ℚ) (kernel_size : ℕ) (t p : Tensor) :
    GlobalMutualInformationLoss_call fexp flog num_bins sigma_ratio t p =
      (GlobalMutualInformation_call fexp flog num_bins sigma_ratio t p).map tneg
    ∧ LocalNormalizedCrossCorrelationLoss_call kernel_size t p =
      (LocalNormalizedCrossCorrelation_call kernel_size t p).map tneg
    ∧ (GlobalNormalizedCrossCorrelationLoss_call t p).shape =
      (GlobalNormalizedCrossCorrelation_call t p).shape
    ∧ ∀ k : ℕ, (GlobalNormalizedCrossCorrelationLoss_call t p).data.getD k 0 =
      -((GlobalNormalizedCrossCorrelation_call t p).data.getD k 0) :=
  ⟨rfl, rfl, rfl, fun k => getD_map_neg _ k⟩

/-- C7: `GlobalMutualInformation.call` clips both inputs into [0, 1] before the
Parzen-window histogram, so its result is unchanged when each input tensor is
replaced by its elementwise clip to [0, 1]. -/
theorem gmi_clip_invariant (fexp flog : ℚ → ℚ) (num_bins : ℕ) (sigma_ratio : ℚ)
    (t p : Tensor) :
    GlobalMutualInformation_call fexp flog num_bins sigma_ratio (clipT t) (clipT p) =
      GlobalMutualInformation_call fexp flog num_bins sigma_ratio t p := by
  have hshape : ∀ u : Tensor, (clipT u).shape = u.shape := fun _ => rfl
  have hexp : ∀ u : Tensor, expandLast (clipT u) = clipT (expandLast u) := fun _ => rfl
  unfold GlobalMutualInformation_call
  simp only [hshape]
  by_cases h4 : t.shape.length = 4
  · simp only [if_pos h4, hexp, hshape, clipT_clipT]
  · simp only [if_neg h4, hshape, clipT_clipT]

/-! ## Claim C1: SumSquaredDifference.call -/

lemma mul_add_lt_mul {i b n j : ℕ} (hi : i < b) (hj : j < n) : i * n + j < b * n := by
  calc i * n + j < i * n + n := by omega
    _ = (i + 1) * n := by ring
    _ ≤ b * n := Nat.mul_le_mul_right n hi

lemma reduceMeanAxis1_getD (x : Tensor) (i : ℕ) (hi : i < x.batch) :
    (reduceMeanAxis1 x).data.getD i 0 =
      (∑ j ∈ Finset.range x.inner, tIdx x i j) / (x.inner : ℚ) := by
  unfold reduceMeanAxis1
  exact getD_range_map _ _ _ _ hi

/-- C1 (counterexample): at `y_true = [[1, 1]]`, `y_pred = [[0, 0]]` the call
returns `[1]` (the mean of the squared differences), not the claimed
sum-of-squared-difference `[2]`. -/
theorem ssd_sum_claim_false :
    SumSquaredDifference_call ⟨[1, 2], [1, 1]⟩ ⟨[1, 2], [0, 0]⟩ ≠
      ssdClaimSum ⟨[1, 2], [1, 1]⟩ ⟨[1, 2], [0, 0]⟩ := by
  intro h
  have h2 := congrArg (fun u => u.data.getD 0 0) h
  simp only [SumSquaredDifference_call, reduceMeanAxis1, flattenK, squared_difference,
    ssdClaimSum, tIdx, Tensor.batch, Tensor.inner] at h2
  norm_num [Finset.sum_range_succ, List.zipWith] at h2

/-- C1 (amended): for tensors of equal shape `(batch, ...)` with at least one
non-batch element, `SumSquaredDifference.call` returns a tensor of shape
`(batch,)` whose i-th entry is the MEAN over all non-batch elements of
`(y_true - y_pred)^2` for batch item i (not their sum). -/
theorem ssd_call_is_mean (t p : Tensor) (b : ℕ) (rest : List ℕ)
    (ht : t.shape = b :: rest) (hp : p.shape = t.shape)
    (hlt : t.data.length = t.shape.prod) (hlp : p.data.length = p.shape.prod)
    (i : ℕ) (hi : i < b) :
    (SumSquaredDifference_call t p).shape = [b] ∧
    (SumSquaredDifference_call t p).data.getD i 0 =
      (∑ j ∈ Finset.range rest.prod, (tIdx t i j - tIdx p i j) ^ 2) / (rest.prod : ℚ) := by
  have htb : t.batch = b := by simp [Tensor.batch, ht]
  have hti : t.inner = rest.prod := by simp [Tensor.inner, ht]
  have hpi : p.inner = rest.prod := by simp [Tensor.inner, hp, ht]
  have hyb : (flattenK (squared_difference t p)).batch = b := by
    simp [flattenK, squared_difference, Tensor.batch, ht]
  have hyi : (flattenK (squared_difference t p)).inner = rest.prod := by
    simp [flattenK, squared_difference, Tensor.inner, ht]
  constructor
  · simp [SumSquaredDifference_call, reduceMeanAxis1, hyb]
  · rw [SumSquaredDifference_call, reduceMeanAxis1_getD _ i (hyb ▸ hi), hyi]
    congr 1
    refine Finset.sum_congr rfl (fun j hj => ?_)
    have hj' : j < rest.prod := Finset.mem_range.mp hj
    have hk : i * rest.prod + j < t.data.length := by
      rw [hlt, ht, List.prod_cons]
      exact mul_add_lt_mul hi hj'
    have hk' : i * rest.prod + j < p.data.length := by
      rw [hlp, hp, ht, List.prod_cons]
      exact mul_add_lt_mul hi hj'
    show (flattenK (squared_difference t p)).data.getD
        (i * (flattenK (squared_difference t p)).inner + j) 0 = _
    rw [hyi]
    show (List.zipWith (fun x y => (x - y) ^ 2) t.data p.data).getD (i * rest.prod + j) 0 = _
    rw [getD_zipWith _ _ _ _ _ hk hk']
    unfold tIdx
    rw [hti, hpi]

/-- Witness for `ssd_call_is_mean` at a concrete input. -/
theorem ssd_call_is_mean_witness :
    (SumSquaredDifference_call ⟨[1, 2], [1, 1]⟩ ⟨[1, 2], [0, 0]⟩).shape = [1] ∧
    (SumSquaredDifference_call ⟨[1, 2], [1, 1]⟩ ⟨[1, 2], [0, 0]⟩).data.getD 0 0 =
      (∑ j ∈ Finset.range (([2] : List ℕ)).prod,
        (tIdx ⟨[1, 2], [1, 1]⟩ 0 j - tIdx ⟨[1, 2], [0, 0]⟩ 0 j) ^ 2) /
      ((([2] : List ℕ)).prod : ℚ) :=
  ssd_call_is_mean ⟨[1, 2], [1, 1]⟩ ⟨[1, 2], [0, 0]⟩ 1 [2] rfl rfl (by decide) (by decide)
    0 (by decide)

/-! ## Claim C8: GlobalNormalizedCrossCorrelation.call -/

/-- C8: for tensors of equal shape `(batch, ...)` (with a non-empty non-batch
part), `GlobalNormalizedCrossCorrelation.call` returns, per batch item,
`(|mean((y_pred - mu_pred) * (y_true - mu_true))|^2 + eps) /
 (Var(y_pred) * Var(y_true) + eps)` with means and variances taken over all
non-batch axes and `eps = EPS = 1.0e-5` exactly. -/
theorem gncc_call_formula (t p : Tensor) (b : ℕ) (rest : List ℕ)
    (ht : t.shape = b :: rest) (hp : p.shape = t.shape)
    (hlt : t.data.length = t.shape.prod) (hlp : p.data.length = p.shape.prod)
    (hn : 0 < rest.prod) (i : ℕ) (hi : i < b) :
    (GlobalNormalizedCrossCorrelation_call t p).shape = [b] ∧
    EPS = 1 / 100000 ∧
    (GlobalNormalizedCrossCorrelation_call t p).data.getD i 0 =
      (|(∑ j ∈ Finset.range rest.prod,
          (tIdx p i j - (∑ j' ∈ Finset.range rest.prod, tIdx p i j') / (rest.prod : ℚ)) *
          (tIdx t i j - (∑ j' ∈ Finset.range rest.prod, tIdx t i j') / (rest.prod : ℚ))) /
         (rest.prod : ℚ)| ^ 2 + EPS) /
      ((∑ j ∈ Finset.range rest.prod,
          (tIdx p i j - (∑ j' ∈ Finset.range rest.prod, tIdx p i j') / (rest.prod : ℚ)) ^ 2) /
         (rest.prod : ℚ) *
       ((∑ j ∈ Finset.range rest.prod,
          (tIdx t i j - (∑ j' ∈ Finset.range rest.prod, tIdx t i j') / (rest.prod : ℚ)) ^ 2) /
         (rest.prod : ℚ)) + EPS) := by
  have htb : t.batch = b := by simp [Tensor.batch, ht]
  have hti : t.inner = rest.prod := by simp [Tensor.inner, ht]
  have hpb : p.batch = b := by simp [Tensor.batch, hp, ht]
  have hpi : p.inner = rest.prod := by simp [Tensor.inner, hp, ht]
  have hltn : t.data.length = b * rest.prod := by rw [hlt, ht, List.prod_cons]
  have hlpn : p.data.length = b * rest.prod := by rw [hlp, hp, ht, List.prod_cons]
  have hsub : ∀ x : Tensor, x.batch = b → x.inner = rest.prod →
      x.data.length = b * rest.prod → ∀ j, j < rest.prod →
      (subB x (reduceMeanNBKeep x)).data.getD (i * rest.prod + j) 0 =
        tIdx x i j - (∑ j' ∈ Finset.range rest.prod, tIdx x i j') / (rest.prod : ℚ) := by
    intro x hxb hxi hxl j hj
    have hk : i * rest.prod + j < b * rest.prod := mul_add_lt_mul hi hj
    have hdiv : (i * rest.prod + j) / rest.prod = i := by
      rw [Nat.mul_comm i rest.prod, Nat.mul_add_div hn, Nat.div_eq_of_lt hj, Nat.add_zero]
    simp only [subB, hxb, hxi]
    rw [getD_range_map _ _ _ _ hk, hdiv]
    simp only [reduceMeanNBKeep, hxb, hxi]
    rw [getD_range_map _ _ _ _ hi]
    simp [tIdx, hxi]
  set M := mulT (subB p (reduceMeanNBKeep p)) (subB t (reduceMeanNBKeep t)) with hM
  have hMb : M.batch = b := hpb
  have hMi : M.inner = rest.prod := hpi
  have hlen_sub : ∀ x : Tensor, x.batch = b → x.inner = rest.prod →
      (subB x (reduceMeanNBKeep x)).data.length = b * rest.prod := by
    intro x hxb hxi
    simp [subB, hxb, hxi]
  have hMdata : ∀ j, j < rest.prod → M.data.getD (i * rest.prod + j) 0 =
      (tIdx p i j - (∑ j' ∈ Finset.range rest.prod, tIdx p i j') / (rest.prod : ℚ)) *
      (tIdx t i j - (∑ j' ∈ Finset.range rest.prod, tIdx t i j') / (rest.prod : ℚ)) := by
    intro j hj
    have hk : i * rest.prod + j < b * rest.prod := mul_add_lt_mul hi hj
    simp only [hM, mulT]
    rw [getD_zipWith _ _ _ _ _ (by rw [hlen_sub p hpb hpi]; exact hk)
      (by rw [hlen_sub t htb hti]; exact hk)]
    rw [hsub p hpb hpi hlpn j hj, hsub t htb hti hltn j hj]
  have hmean : (reduceMeanNB M).data.getD i 0 =
      (∑ j ∈ Finset.range rest.prod, M.data.getD (i * rest.prod + j) 0) / (rest.prod : ℚ) := by
    simp only [reduceMeanNB, hMb, hMi]
    rw [getD_range_map _ _ _ _ hi]
    congr 1
    refine Finset.sum_congr rfl (fun j _ => ?_)
    simp [tIdx, hMi]
  have hlen_meanM : (reduceMeanNB M).data.length = b := by simp [reduceMeanNB, hMb]
  have hnum : (absT (reduceMeanNB M)).data.getD i 0 =
      |(∑ j ∈ Finset.range rest.prod,
        (tIdx p i j - (∑ j' ∈ Finset.range rest.prod, tIdx p i j') / (rest.prod : ℚ)) *
        (tIdx t i j - (∑ j' ∈ Finset.range rest.prod, tIdx t i j') / (rest.prod : ℚ))) /
        (rest.prod : ℚ)| := by
    simp only [absT]
    rw [getD_map_of_lt _ _ _ _ (by rw [hlen_meanM]; exact hi), hmean]
    congr 2
    exact Finset.sum_congr rfl (fun j hj => hMdata j (Finset.mem_range.mp hj))
  have hvar : ∀ x : Tensor, x.batch = b → x.inner = rest.prod →
      (reduceVarNB x).data.getD i 0 =
      (∑ j ∈ Finset.range rest.prod,
        (tIdx x i j - (∑ j' ∈ Finset.range rest.prod, tIdx x i j') / (rest.prod : ℚ)) ^ 2) /
        (rest.prod : ℚ) := by
    intro x hxb hxi
    simp only [reduceVarNB, hxb, hxi]
    exact getD_range_map _ _ _ _ hi
  have hlen_num : (absT (reduceMeanNB M)).data.length = b := by simp [absT, hlen_meanM]
  have hlen_varp : (reduceVarNB p).data.length = b := by simp [reduceVarNB, hpb]
  have hlen_vart : (reduceVarNB t).data.length = b := by simp [reduceVarNB, htb]
  refine ⟨?_, rfl, ?_⟩
  · simp only [GlobalNormalizedCrossCorrelation_call, divT, addS, mulT, absT, reduceMeanNB]
    simp [Tensor.batch, subB, hp, ht]
  · simp only [GlobalNormalizedCrossCorrelation_call]
    rw [← hM]
    simp only [divT]
    rw [getD_zipWith _ _ _ _ _
      (by simp [addS, mulT, hlen_num]; exact hi)
      (by simp [addS, mulT, hlen_varp, hlen_vart]; exact hi)]
    simp only [addS]
    rw [getD_map_of_lt _ _ _ _ (by simp [mulT, hlen_num]; exact hi)]
    rw [getD_map_of_lt _ _ _ _ (by simp [mulT, hlen_varp, hlen_vart]; exact hi)]
    simp only [mulT]
    rw [getD_zipWith _ _ _ _ _ (by rw [hlen_num]; exact hi) (by rw [hlen_num]; exact hi)]
    rw [getD_zipWith _ _ _ _ _ (by rw [hlen_varp]; exact hi) (by rw [hlen_vart]; exact hi)]
    rw [hnum, hvar p hpb hpi, hvar t htb hti, pow_two]

/-- Witness for `gncc_call_formula` at a concrete input. -/
theorem gncc_call_formula_witness :
    (GlobalNormalizedCrossCorrelation_call ⟨[1, 2], [0, 1]⟩ ⟨[1, 2], [1, 3]⟩).shape = [1] ∧
    EPS = 1 / 100000 ∧
    (GlobalNormalizedCrossCorrelation_call ⟨[1, 2], [0, 1]⟩ ⟨[1, 2], [1, 3]⟩).data.getD 0 0 =
      (|(∑ j ∈ Finset.range (([2] : List ℕ)).prod,
          (tIdx ⟨[1, 2], [1, 3]⟩ 0 j -
            (∑ j' ∈ Finset.range (([2] : List ℕ)).prod, tIdx ⟨[1, 2], [1, 3]⟩ 0 j') /
            ((([2] : List ℕ)).prod : ℚ)) *
          (tIdx ⟨[1, 2], [0, 1]⟩ 0 j -
            (∑ j' ∈ Finset.range (([2] : List ℕ)).prod, tIdx ⟨[1, 2], [0, 1]⟩ 0 j') /
            ((([2] : List ℕ)).prod : ℚ))) /
         ((([2] : List ℕ)).prod : ℚ)| ^ 2 + EPS) /
      ((∑ j ∈ Finset.range (([2] : List ℕ)).prod,
          (tIdx ⟨[1, 2], [1, 3]⟩ 0 j -
            (∑ j' ∈ Finset.range (([2] : List ℕ)).prod, tIdx ⟨[1, 2], [1, 3]⟩ 0 j') /
            ((([2] : List ℕ)).prod : ℚ)) ^ 2) /
         ((([2] : List ℕ)).prod : ℚ) *
       ((∑ j ∈ Finset.range (([2] : List ℕ)).prod,
          (tIdx ⟨[1, 2], [0, 1]⟩ 0 j -
            (∑ j' ∈ Finset.range (([2] : List ℕ)).prod, tIdx ⟨[1, 2], [0, 1]⟩ 0 j') /
            ((([2] : List ℕ)).prod : ℚ)) ^ 2) /
         ((([2] : List ℕ)).prod : ℚ)) + EPS) :=
  gncc_call_formula ⟨[1, 2], [0, 1]⟩ ⟨[1, 2], [1, 3]⟩ 1 [2] rfl rfl (by decide) (by decide)
    (by decide) 0 (by decide)

/-! ## Loader lemmas: the key dictionary -/

lemma insertAppend_keys (d : KeyDict) (k v : String) :
    (insertAppend d k v).map Prod.fst =
      if k ∈ d.map Prod.fst then d.map Prod.fst else d.map Prod.fst ++ [k] := by
  induction d with
  | nil => simp [insertAppend]
  | cons e rest ih =>
      obtain ⟨k', vs⟩ := e
      simp only [insertAppend]
      by_cases h : k' = k
      · subst h
        simp
      · simp only [if_neg h, List.map_cons]
        rw [ih]
        by_cases h2 : k ∈ rest.map Prod.fst
        · simp [h2, Ne.symm h]
        · simp [h2, Ne.symm h]

lemma buildDict_ok_iff (ik : List String) :
    ∀ (ls : List String) (d : KeyDict),
      (∃ d', buildDict ik ls d = .ok d') ↔
        ∀ lk ∈ ls, stripBin lk ∉ SKIPPED_KEYS → stripBin lk ∈ ik := by
  intro ls
  induction ls with
  | nil => intro d; simp [buildDict]
  | cons lk rest ih =>
      intro d
      by_cases h1 : stripBin lk ∈ SKIPPED_KEYS
      · simp [buildDict, h1, ih]
      · by_cases h2 : stripBin lk ∈ ik
        · simp [buildDict, h1, h2, ih]
        · simp [buildDict, h1, h2]

lemma buildDict_err (ik : List String) :
    ∀ ls d, (¬ ∀ lk ∈ ls, stripBin lk ∉ SKIPPED_KEYS → stripBin lk ∈ ik) →
      buildDict ik ls d = .error .assertionError := by
  intro ls
  induction ls with
  | nil => intro d h; simp at h
  | cons lk rest ih =>
      intro d h
      simp only [List.forall_mem_cons] at h
      by_cases h1 : stripBin lk ∈ SKIPPED_KEYS
      · have hq : ¬ ∀ l ∈ rest, stripBin l ∉ SKIPPED_KEYS → stripBin l ∈ ik := by
          intro hq
          exact h ⟨fun hc => absurd h1 hc, hq⟩
        simp only [buildDict, if_pos h1]
        exact ih d hq
      · by_cases h2 : stripBin lk ∈ ik
        · have hq : ¬ ∀ l ∈ rest, stripBin l ∉ SKIPPED_KEYS → stripBin l ∈ ik := by
            intro hq
            exact h ⟨fun _ => h2, hq⟩
          simp only [buildDict, if_neg h1, if_pos h2]
          exact ih _ hq
        · simp only [buildDict, if_neg h1, if_neg h2]

lemma buildDict_ok_keys (ik : List String) :
    ∀ ls d d', buildDict ik ls d = .ok d' →
      ∀ x, x ∈ d'.map Prod.fst ↔
        x ∈ d.map Prod.fst ∨ ∃ lk ∈ ls, stripBin lk = x ∧ x ∉ SKIPPED_KEYS := by
  intro ls
  induction ls with
  | nil =>
      intro d d' h x
      simp only [buildDict] at h
      cases h
      simp
  | cons lk rest ih =>
      intro d d' h x
      by_cases h1 : stripBin lk ∈ SKIPPED_KEYS
      · simp only [buildDict, if_pos h1] at h
        rw [ih d d' h x]
        constructor
        · rintro (hd | ⟨l, hl, hx, hsk⟩)
          · exact Or.inl hd
          · exact Or.inr ⟨l, List.mem_cons_of_mem _ hl, hx, hsk⟩
        · rintro (hd | ⟨l, hl, hx, hsk⟩)
          · exact Or.inl hd
          · rcases List.mem_cons.mp hl with h' | h'
            · subst h'
              exact absurd (hx ▸ h1) hsk
            · exact Or.inr ⟨l, h', hx, hsk⟩
      · by_cases h2 : stripBin lk ∈ ik
        · simp only [buildDict, if_neg h1, if_pos h2] at h
          rw [ih _ d' h x, insertAppend_keys]
          by_cases h3 : stripBin lk ∈ d.map Prod.fst
          · rw [if_pos h3]
            constructor
            · rintro (hd | ⟨l, hl, hx, hsk⟩)
              · exact Or.inl hd
              · exact Or.inr ⟨l, List.mem_cons_of_mem _ hl, hx, hsk⟩
            · rintro (hd | ⟨l, hl, hx, hsk⟩)
              · exact Or.inl hd
              · rcases List.mem_cons.mp hl with h' | h'
                · subst h'
                  exact Or.inl (hx ▸ h3)
                · exact Or.inr ⟨l, h', hx, hsk⟩
          · rw [if_neg h3]
            constructor
            · rintro (hmem | ⟨l, hl, hx, hsk⟩)
              · rcases List.mem_append.mp hmem with hd | hk
                · exact Or.inl hd
                · have hxk : x = stripBin lk := by simpa using hk
                  exact Or.inr ⟨lk, List.mem_cons_self _ _, hxk.symm, hxk ▸ h1⟩
              · exact Or.inr ⟨l, List.mem_cons_of_mem _ hl, hx, hsk⟩
            · rintro (hd | ⟨l, hl, hx, hsk⟩)
              · exact Or.inl (List.mem_append.mpr (Or.inl hd))
              · rcases List.mem_cons.mp hl with h' | h'
                · subst h'
                  exact Or.inl (List.mem_append.mpr (Or.inr (by simp [hx])))
                · exact Or.inr ⟨l, h', hx, hsk⟩
        · simp [buildDict, h1, h2] at h

lemma buildDict_ok_nodup (ik : List String) :
    ∀ ls d d', (d.map Prod.fst).Nodup → buildDict ik ls d = .ok d' →
      (d'.map Prod.fst).Nodup := by
  intro ls
  induction ls with
  | nil =>
      intro d d' hd h
      simp only [buildDict] at h
      cases h
      exact hd
  | cons lk rest ih =>
      intro d d' hd h
      by_cases h1 : stripBin lk ∈ SKIPPED_KEYS
      · simp only [buildDict, if_pos h1] at h
        exact ih d d' hd h
      · by_cases h2 : stripBin lk ∈ ik
        · simp only [buildDict, if_neg h1, if_pos h2] at h
          refine ih _ d' ?_ h
          rw [insertAppend_keys]
          by_cases h3 : stripBin lk ∈ d.map Prod.fst
          · rwa [if_pos h3]
          · rw [if_neg h3]
            rw [List.nodup_append]
            exact ⟨hd, List.nodup_singleton _, by simpa using fun hx => h3 hx⟩
        · simp [buildDict, h1, h2] at h

lemma exceptBind_ok {α β : Type} (a : α) (f : α → Except PyError β) :
    ((Except.ok a : Except PyError α) >>= f) = f a := rfl

lemma exceptBind_err {α β : Type} (e : PyError) (f : α → Except PyError β) :
    ((Except.error e : Except PyError α) >>= f) = .error e := rfl

lemma mem_strippedFiltered {x : String} {lab : List String} :
    x ∈ (lab.map stripBin).filter (fun y => !(SKIPPED_KEYS.contains y)) ↔
      ∃ l ∈ lab, stripBin l = x ∧ x ∉ SKIPPED_KEYS := by
  simp only [List.mem_filter, List.mem_map]
  constructor
  · rintro ⟨⟨l, hl, hx⟩, hc⟩
    exact ⟨l, hl, hx, by simpa using hc⟩
  · rintro ⟨l, hl, hx, hc⟩
    exact ⟨⟨l, hl, hx⟩, by simpa using hc⟩

/-- `get_image_label_key_dict` succeeds exactly on the key condition the
code enforces. -/
lemma gikd_ok_iff (img lab : H5File) :
    (∃ d, get_image_label_key_dict img lab = .ok d) ↔ goodKeyPair img lab := by
  by_cases hc : ∀ lk ∈ get_sorted_keys lab, stripBin lk ∉ SKIPPED_KEYS →
      stripBin lk ∈ get_sorted_keys img
  · obtain ⟨d0, hd0⟩ := (buildDict_ok_iff (get_sorted_keys img) (get_sorted_keys lab) []).mpr hc
    have hkeys := buildDict_ok_keys (get_sorted_keys img) (get_sorted_keys lab) [] d0 hd0
    have hnd : (d0.map Prod.fst).Nodup :=
      buildDict_ok_nodup _ _ [] d0 (by simp) hd0
    have himg_nodup : ((img.map Prod.fst).dedup).Nodup := List.nodup_dedup _
    have hiff : (sortStr (d0.map Prod.fst) = get_sorted_keys img) ↔
        ∀ x, x ∈ d0.map Prod.fst ↔ x ∈ (img.map Prod.fst).dedup := by
      unfold get_sorted_keys
      exact sortStr_eq_sortStr_iff hnd himg_nodup
    have hg : get_image_label_key_dict img lab =
        if sortStr (d0.map Prod.fst) = get_sorted_keys img then .ok d0
        else .error .assertionError := by
      simp only [get_image_label_key_dict, hd0, exceptBind_ok]
      rfl
    by_cases hsort : sortStr (d0.map Prod.fst) = get_sorted_keys img
    · rw [hg, if_pos hsort]
      constructor
      · intro _
        refine ⟨hc, ?_, ?_⟩
        · intro x hx
          rcases mem_strippedFiltered.mp hx with ⟨l, hl, hls, hsk⟩
          have := hc l hl (by rwa [hls])
          rwa [hls] at this
        · intro x hx
          have hxd : x ∈ (img.map Prod.fst).dedup := by
            unfold get_sorted_keys at hx
            exact mem_sortStr.mp hx
          have hxm : x ∈ d0.map Prod.fst := (hiff.mp hsort x).mpr hxd
          rcases (hkeys x).mp hxm with hfalse | ⟨l, hl, hlx, hsk⟩
          · simp at hfalse
          · exact mem_strippedFiltered.mpr ⟨l, hl, hlx, hsk⟩
      · intro _
        exact ⟨d0, rfl⟩
    · rw [hg, if_neg hsort]
      constructor
      · rintro ⟨d, hd⟩
        simp at hd
      · rintro ⟨c1, c2, c3⟩
        exfalso
        apply hsort
        rw [hiff]
        intro x
        constructor
        · intro hx
          rcases (hkeys x).mp hx with hfalse | ⟨l, hl, hlx, hsk⟩
          · simp at hfalse
          · have hxf := mem_strippedFiltered.mpr ⟨l, hl, hlx, hsk⟩
            have hxi := c2 x hxf
            unfold get_sorted_keys at hxi
            exact mem_sortStr.mp hxi
        · intro hx
          have hxi : x ∈ get_sorted_keys img := by
            unfold get_sorted_keys
            exact mem_sortStr.mpr hx
          rcases mem_strippedFiltered.mp (c3 x hxi) with ⟨l, hl, hlx, hsk⟩
          exact (hkeys x).mpr (Or.inr ⟨l, hl, hlx, hsk⟩)
  · have hbe := buildDict_err (get_sorted_keys img) (get_sorted_keys lab) [] hc
    constructor
    · rintro ⟨d, hd⟩
      simp only [get_image_label_key_dict, hbe, exceptBind_err] at hd
      simp at hd
    · intro hgood
      exact absurd hgood.1 hc

/-- `get_image_label_key_dict` fails only with `AssertionError`. -/
lemma gikd_err_kind (img lab : H5File) (e : PyError)
    (h : get_image_label_key_dict img lab = .error e) : e = .assertionError := by
  by_cases hc : ∀ lk ∈ get_sorted_keys lab, stripBin lk ∉ SKIPPED_KEYS →
      stripBin lk ∈ get_sorted_keys img
  · obtain ⟨d0, hd0⟩ := (buildDict_ok_iff (get_sorted_keys img) (get_sorted_keys lab) []).mpr hc
    simp only [get_image_label_key_dict, hd0, exceptBind_ok] at h
    by_cases hsort : sortStr (d0.map Prod.fst) = get_sorted_keys img
    · rw [if_pos hsort] at h
      simp [pure, Except.pure] at h
    · rw [if_neg hsort] at h
      exact (Except.error.inj h).symm
  · have hbe := buildDict_err (get_sorted_keys img) (get_sorted_keys lab) [] hc
    simp only [get_image_label_key_dict, hbe, exceptBind_err] at h
    exact (Except.error.inj h).symm

lemma gikd_not_ok (img lab : H5File) (h : ¬ goodKeyPair img lab) :
    get_image_label_key_dict img lab = .error .assertionError := by
  cases hg : get_image_label_key_dict img lab with
  | ok d => exact absurd ((gikd_ok_iff img lab).mp ⟨d, hg⟩) h
  | error e => rw [gikd_err_kind img lab e hg]

/-! ## Loader lemmas: shapes and construction plumbing -/

lemma checkShapes_ok_iff (f : H5File) (sh : List ℕ) :
    ∀ ks, checkShapes f sh ks = .ok () ↔
      ∀ k ∈ ks, ∃ ds, h5find f k = some ds ∧ sh = ds.shape := by
  intro ks
  induction ks with
  | nil => simp [checkShapes]
  | cons k rest ih =>
      cases hf : h5find f k with
      | none => simp [checkShapes, hf]
      | some ds =>
          by_cases he : sh = ds.shape
          · subst he
            simp [checkShapes, hf, ih]
          · simp [checkShapes, hf, he]

lemma gisAux_ok (f : H5File) (ks : List String) (sh : List ℕ)
    (h : gisAux f ks = .ok sh) :
    sh.length = 3 ∧ ∀ k ∈ ks, ∃ ds, h5find f k = some ds ∧ ds.shape = sh := by
  cases ks with
  | nil => simp [gisAux] at h
  | cons k0 krest =>
      cases hf : h5find f k0 with
      | none => simp [gisAux, hf] at h
      | some ds0 =>
          by_cases h3 : ds0.shape.length = 3
          · simp only [gisAux, hf, if_pos h3] at h
            cases hcs : checkShapes f ds0.shape (k0 :: krest) with
            | error e =>
                rw [hcs] at h
                simp at h
            | ok u =>
                cases u
                rw [hcs] at h
                simp at h
                subst h
                refine ⟨h3, fun k hk => ?_⟩
                rcases ((checkShapes_ok_iff f ds0.shape (k0 :: krest)).mp hcs) k hk with
                  ⟨ds, hds, hsh⟩
                exact ⟨ds, hds, hsh.symm⟩
          · simp [gisAux, hf, h3] at h

lemma mem_gis_keys {f : H5File} {k : String} :
    k ∈ sortStr (((f.map Prod.fst).dedup).filter (fun k => !(SKIPPED_KEYS.contains k))) ↔
      k ∈ f.map Prod.fst ∧ k ∉ SKIPPED_KEYS := by
  rw [mem_sortStr, List.mem_filter, List.mem_dedup]
  simp

lemma get_image_shape_ok (f : H5File) (sh : List ℕ)
    (h : get_image_shape f = .ok sh) :
    sh.length = 3 ∧ ∀ k ∈ f.map Prod.fst, k ∉ SKIPPED_KEYS →
      ∃ ds, h5find f k = some ds ∧ ds.shape = sh := by
  obtain ⟨h3, hall⟩ := gisAux_ok f _ sh h
  exact ⟨h3, fun k hk hsk => hall k (mem_gis_keys.mpr ⟨hk, hsk⟩)⟩

lemma stage1_parts {mi fi ml fl : H5File} {md : KeyDict} {mis fis : List ℕ}
    (h : H5initStage1 mi fi ml fl = .ok (md, mis, fis)) :
    get_image_label_key_dict mi ml = .ok md ∧
    (∃ fd, get_image_label_key_dict fi fl = .ok fd) ∧
    get_image_shape mi = .ok mis ∧
    get_image_shape fi = .ok fis ∧
    get_image_shape ml = .ok mis ∧
    get_image_shape fl = .ok fis := by
  unfold H5initStage1 at h
  cases h1 : get_image_label_key_dict mi ml with
  | error e =>
      rw [h1, exceptBind_err] at h
      simp at h
  | ok md' =>
      rw [h1, exceptBind_ok] at h
      cases h2 : get_image_label_key_dict fi fl with
      | error e =>
          rw [h2, exceptBind_err] at h
          simp at h
      | ok fd =>
          rw [h2, exceptBind_ok] at h
          cases h3 : checkSameDict fd md' with
          | error e =>
              rw [h3, exceptBind_err] at h
              simp at h
          | ok u =>
              cases u
              rw [h3, exceptBind_ok] at h
              cases h4 : get_image_shape mi with
              | error e =>
                  rw [h4, exceptBind_err] at h
                  simp at h
              | ok mis' =>
                  rw [h4, exceptBind_ok] at h
                  cases h5 : get_image_shape fi with
                  | error e =>
                      rw [h5, exceptBind_err] at h
                      simp at h
                  | ok fis' =>
                      rw [h5, exceptBind_ok] at h
                      cases h6 : get_image_shape ml with
                      | error e =>
                          rw [h6, exceptBind_err] at h
                          simp at h
                      | ok mls =>
                          rw [h6, exceptBind_ok] at h
                          cases h7 : get_image_shape fl with
                          | error e =>
                              rw [h7, exceptBind_err] at h
                              simp at h
                          | ok fls =>
                              rw [h7, exceptBind_ok] at h
                              by_cases he1 : mis' = mls
                              · rw [if_pos he1] at h
                                by_cases he2 : fis' = fls
                                · rw [if_pos he2] at h
                                  simp only [pure, Except.pure, Except.ok.injEq,
                                    Prod.mk.injEq] at h
                                  obtain ⟨hmd, hmis, hfis⟩ := h
                                  subst hmd
                                  subst hmis
                                  subst hfis
                                  exact ⟨rfl, ⟨fd, rfl⟩, rfl, rfl, by rw [he1], by rw [he2]⟩
                                · rw [if_neg he2] at h
                                  simp at h
                              · rw [if_neg he1] at h
                                simp at h

lemma stage1_err1 {mi fi ml fl : H5File} {e : PyError}
    (h : get_image_label_key_dict mi ml = .error e) :
    H5initStage1 mi fi ml fl = .error e := by
  unfold H5initStage1
  rw [h]
  exact exceptBind_err e _

lemma stage1_err2 {mi fi ml fl : H5File} {md : KeyDict} {e : PyError}
    (h1 : get_image_label_key_dict mi ml = .ok md)
    (h2 : get_image_label_key_dict fi fl = .error e) :
    H5initStage1 mi fi ml fl = .error e := by
  unfold H5initStage1
  rw [h1, exceptBind_ok, h2]
  exact exceptBind_err e _

lemma init_unfold (shuffleFn : ℕ → List String → List String) (mi fi ml fl : H5File)
    (seed : ℕ) (sh : Bool) (a b : ℤ) {md : KeyDict} {mis fis : List ℕ}
    (h1 : H5initStage1 mi fi ml fl = .ok (md, mis, fis)) :
    H5DataLoader_init shuffleFn mi fi ml fl seed sh a b =
      if 0 ≤ a ∧ b ≤ ((sortStr (md.map Prod.fst)).length : ℤ) then
        .ok { key_dict := md,
              keys := pySlice (if sh then shuffleFn seed (sortStr (md.map Prod.fst))
                               else sortStr (md.map Prod.fst)) a b,
              moving_image_filename := mi, fixed_image_filename := fi,
              moving_label_filename := ml, fixed_label_filename := fl,
              moving_image_shape := mis, fixed_image_shape := fis }
      else .error .assertionError := by
  unfold H5DataLoader_init
  rw [h1]

lemma init_ok_elim {shuffleFn : ℕ → List String → List String} {mi fi ml fl : H5File}
    {seed : ℕ} {sh : Bool} {a b : ℤ} {L : H5Loader}
    (h : H5DataLoader_init shuffleFn mi fi ml fl seed sh a b = .ok L) :
    ∃ md mis fis, H5initStage1 mi fi ml fl = .ok (md, mis, fis) ∧
      (0 ≤ a ∧ b ≤ ((sortStr (md.map Prod.fst)).length : ℤ)) ∧
      L = { key_dict := md,
            keys := pySlice (if sh then shuffleFn seed (sortStr (md.map Prod.fst))
                             else sortStr (md.map Prod.fst)) a b,
            moving_image_filename := mi, fixed_image_filename := fi,
            moving_label_filename := ml, fixed_label_filename := fl,
            moving_image_shape := mis, fixed_image_shape := fis } := by
  cases hs : H5initStage1 mi fi ml fl with
  | error e =>
      unfold H5DataLoader_init at h
      rw [hs] at h
      simp at h
  | ok trip =>
      obtain ⟨md, mis, fis⟩ := trip
      rw [init_unfold shuffleFn mi fi ml fl seed sh a b hs] at h
      by_cases hb : 0 ≤ a ∧ b ≤ ((sortStr (md.map Prod.fst)).length : ℤ)
      · rw [if_pos hb] at h
        exact ⟨md, mis, fis, rfl, hb, (Except.ok.inj h).symm⟩
      · rw [if_neg hb] at h
        simp at h

lemma init_err_stage1 {shuffleFn : ℕ → List String → List String} {mi fi ml fl : H5File}
    {seed : ℕ} {sh : Bool} {a b : ℤ} {e : PyError}
    (hs : H5initStage1 mi fi ml fl = .error e) :
    H5DataLoader_init shuffleFn mi fi ml fl seed sh a b = .error e := by
  unfold H5DataLoader_init
  rw [hs]

lemma init_err_bounds {shuffleFn : ℕ → List String → List String} {mi fi ml fl : H5File}
    {seed : ℕ} {sh : Bool} {a b : ℤ} {md : KeyDict} {mis fis : List ℕ}
    (hs : H5initStage1 mi fi ml fl = .ok (md, mis, fis))
    (hb : ¬(0 ≤ a ∧ b ≤ ((sortStr (md.map Prod.fst)).length : ℤ))) :
    H5DataLoader_init shuffleFn mi fi ml fl seed sh a b = .error .assertionError := by
  rw [init_unfold shuffleFn mi fi ml fl seed sh a b hs, if_neg hb]

/-! ## Concrete fixtures for witnesses and counterexamples -/

/-- A 3-D dataset of shape `[1, 1, 1]`. -/
def dsA : Dataset := ⟨[1, 1, 1], []⟩

/-- A 3-D dataset of shape `[1, 1, 2]`. -/
def dsB : Dataset := ⟨[1, 1, 2], []⟩

/-- A trivial stand-in for `random.Random(seed).shuffle`. -/
def idShuffle : ℕ → List String → List String := fun _ l => l

/-- A reversing stand-in for `random.Random(seed).shuffle`. -/
def revShuffle : ℕ → List String → List String := fun _ l => l.reverse

def miW2 : H5File := [("a", dsA), ("b", dsA)]

def mlW2 : H5File := [("a_bin000", dsA), ("b_bin000", dsA)]

def mdW2 : KeyDict := [("a", ["a_bin000"]), ("b", ["b_bin000"])]

/-- The loader built from `miW2`/`mlW2` with `revShuffle`, seed 7, slice `[0:1)`. -/
def LW2 : H5Loader :=
  { key_dict := mdW2, keys := ["b"],
    moving_image_filename := miW2, fixed_image_filename := miW2,
    moving_label_filename := mlW2, fixed_label_filename := mlW2,
    moving_image_shape := [1, 1, 1], fixed_image_shape := [1, 1, 1] }

/-- A one-case loader for the generator witness. -/
def LW : H5Loader :=
  { key_dict := [("case000", ["case000_bin000"])], keys := ["case000"],
    moving_image_filename := [("case000", dsA)], fixed_image_filename := [("case000", dsA)],
    moving_label_filename := [("case000_bin000", dsA)],
    fixed_label_filename := [("case000_bin000", dsA)],
    moving_image_shape := [1, 1, 1], fixed_image_shape := [1, 1, 1] }

/-! ## Claim theorems: the loader -/

/-- C2 (counterexample): with image file `{case000}` and label file
`{case000_bin000, num_important_bin000}`, construction succeeds although the
claim's condition fails: the label key `num_important_bin000` is not itself a
bookkeeping key, and its stripped form `num_important` is not an image key —
the code skips on the STRIPPED key instead. -/
theorem h5init_key_claim_false :
    isOkE (H5DataLoader_init idShuffle [("case000", dsA)] [("case000", dsA)]
      [("case000_bin000", dsA), ("num_important_bin000", dsA)]
      [("case000_bin000", dsA), ("num_important_bin000", dsA)] 0 false 0 1) = true ∧
    ¬ claimKeyCond [("case000", dsA)]
      [("case000_bin000", dsA), ("num_important_bin000", dsA)] :=
  ⟨by decide, by decide⟩

/-- C2 (amended): construction succeeds only when, for both the moving and the
fixed image/label pairs, every label key whose STRIPPED form is not a
bookkeeping key strips to an image key and the set of such stripped keys
equals the set of image keys; when this fails for either pair, construction
raises an `AssertionError`. -/
theorem h5init_key_condition (shuffleFn : ℕ → List String → List String)
    (mi fi ml fl : H5File) (seed : ℕ) (sh : Bool) (a b : ℤ) :
    (isOkE (H5DataLoader_init shuffleFn mi fi ml fl seed sh a b) = true →
        goodKeyPair mi ml ∧ goodKeyPair fi fl)
    ∧ (¬(goodKeyPair mi ml ∧ goodKeyPair fi fl) →
        H5DataLoader_init shuffleFn mi fi ml fl seed sh a b = .error .assertionError) := by
  constructor
  · intro hOk
    cases hL : H5DataLoader_init shuffleFn mi fi ml fl seed sh a b with
    | error e =>
        rw [hL] at hOk
        simp [isOkE] at hOk
    | ok L =>
        obtain ⟨md, mis, fis, hs, hb, hLval⟩ := init_ok_elim hL
        obtain ⟨hmd, ⟨fd, hfd⟩, _⟩ := stage1_parts hs
        exact ⟨(gikd_ok_iff mi ml).mp ⟨md, hmd⟩, (gikd_ok_iff fi fl).mp ⟨fd, hfd⟩⟩
  · intro hbad
    by_cases g1 : goodKeyPair mi ml
    · have g2 : ¬ goodKeyPair fi fl := fun g2 => hbad ⟨g1, g2⟩
      obtain ⟨md, hmd⟩ := (gikd_ok_iff mi ml).mpr g1
      exact init_err_stage1 (stage1_err2 hmd (gikd_not_ok fi fl g2))
    · exact init_err_stage1 (stage1_err1 (gikd_not_ok mi ml g1))

/-- Witness for `h5init_key_condition` at concrete inputs (one passing pair and
one failing pair). -/
theorem h5init_key_condition_witness :
    (goodKeyPair [("case000", dsA)] [("case000_bin000", dsA)] ∧
     goodKeyPair [("case000", dsA)] [("case000_bin000", dsA)]) ∧
    H5DataLoader_init idShuffle [("case000", dsA)] [("case000", dsA)]
      [("caseX_bin000", dsA)] [("caseX_bin000", dsA)] 0 false 0 1 =
      .error .assertionError :=
  ⟨(h5init_key_condition idShuffle [("case000", dsA)] [("case000", dsA)]
      [("case000_bin000", dsA)] [("case000_bin000", dsA)] 0 false 0 1).1 (by decide),
   (h5init_key_condition idShuffle [("case000", dsA)] [("case000", dsA)]
      [("caseX_bin000", dsA)] [("caseX_bin000", dsA)] 0 false 0 1).2 (by decide)⟩

/-- C3: with `shuffle=True`, the stored `self.keys` is the sorted case-key list
permuted by the seed-determined shuffle and then sliced `[index_start:index_end)`
(Python slice semantics); two loaders built from the same arguments carry
identical keys; and bounds `index_start >= 0 ∧ index_end <= len(keys)` are
asserted before shuffling, an `AssertionError` otherwise. -/
theorem h5init_keys_shuffle_slice (shuffleFn : ℕ → List String → List String)
    (mi fi ml fl : H5File) (seed : ℕ) (a b : ℤ) (md : KeyDict) (mis fis : List ℕ)
    (h1 : H5initStage1 mi fi ml fl = .ok (md, mis, fis)) :
    (∀ L, H5DataLoader_init shuffleFn mi fi ml fl seed true a b = .ok L →
        L.keys = pySlice (shuffleFn seed (sortStr (md.map Prod.fst))) a b)
    ∧ (∀ L1 L2, H5DataLoader_init shuffleFn mi fi ml fl seed true a b = .ok L1 →
        H5DataLoader_init shuffleFn mi fi ml fl seed true a b = .ok L2 →
        L1.keys = L2.keys)
    ∧ (¬(0 ≤ a ∧ b ≤ ((sortStr (md.map Prod.fst)).length : ℤ)) →
        H5DataLoader_init shuffleFn mi fi ml fl seed true a b =
          .error .assertionError) := by
  refine ⟨?_, ?_, ?_⟩
  · intro L hL
    obtain ⟨md', mis', fis', hs', hb', hLval⟩ := init_ok_elim hL
    rw [h1] at hs'
    obtain ⟨hmd, hmis, hfis⟩ : md = md' ∧ mis = mis' ∧ fis = fis' := by
      simpa using Except.ok.inj hs'
    subst hmd
    rw [hLval]
    simp
  · intro L1 L2 hL1 hL2
    rw [hL1] at hL2
    rw [Except.ok.inj hL2]
  · intro hb
    exact init_err_bounds h1 hb

/-- Witness for `h5init_keys_shuffle_slice`: two cases, reversing shuffle,
slice `[0:1)` keeps the shuffled head; bad bounds raise. -/
theorem h5init_keys_shuffle_slice_witness :
    LW2.keys = pySlice (revShuffle 7 (sortStr (mdW2.map Prod.fst))) 0 1 ∧
    H5DataLoader_init revShuffle miW2 miW2 mlW2 mlW2 7 true (-1) 1 =
      .error .assertionError :=
  ⟨(h5init_keys_shuffle_slice revShuffle miW2 miW2 mlW2 mlW2 7 0 1 mdW2 [1, 1, 1] [1, 1, 1]
      (by decide)).1 LW2 (by decide),
   (h5init_keys_shuffle_slice revShuffle miW2 miW2 mlW2 mlW2 7 (-1) 1 mdW2 [1, 1, 1] [1, 1, 1]
      (by decide)).2.2 (by decide)⟩

/-- C4 (counterexample): construction succeeds with moving-side shape
`[1, 1, 1]` and fixed-side shape `[1, 1, 2]` — the code never asserts that the
moving and fixed shapes agree, so the four files need not share one common
shape. -/
theorem h5init_shapes_claim_false :
    isOkE (H5DataLoader_init idShuffle [("case000", dsA)] [("case000", dsB)]
      [("case000_bin000", dsA)] [("case000_bin000", dsB)] 0 false 0 1) = true ∧
    (h5find [("case000", dsA)] "case000").map Dataset.shape = some [1, 1, 1] ∧
    (h5find [("case000", dsB)] "case000").map Dataset.shape = some [1, 1, 2] ∧
    ([1, 1, 1] : List ℕ) ≠ [1, 1, 2] :=
  ⟨by decide, by decide, by decide, by decide⟩

/-- C4 (amended): after every successful construction, the moving image and
moving label files share one common 3-D shape (the stored
`moving_image_shape`), and the fixed image and fixed label files share one
common 3-D shape (the stored `fixed_image_shape`); the moving and fixed shapes
need not be equal. -/
theorem h5init_shapes_per_pair (shuffleFn : ℕ → List String → List String)
    (mi fi ml fl : H5File) (seed : ℕ) (sh : Bool) (a b : ℤ) (L : H5Loader)
    (h : H5DataLoader_init shuffleFn mi fi ml fl seed sh a b = .ok L) :
    L.moving_image_shape.length = 3 ∧ L.fixed_image_shape.length = 3 ∧
    (∀ k ∈ mi.map Prod.fst, k ∉ SKIPPED_KEYS →
      ∃ ds, h5find mi k = some ds ∧ ds.shape = L.moving_image_shape) ∧
    (∀ k ∈ ml.map Prod.fst, k ∉ SKIPPED_KEYS →
      ∃ ds, h5find ml k = some ds ∧ ds.shape = L.moving_image_shape) ∧
    (∀ k ∈ fi.map Prod.fst, k ∉ SKIPPED_KEYS →
      ∃ ds, h5find fi k = some ds ∧ ds.shape = L.fixed_image_shape) ∧
    (∀ k ∈ fl.map Prod.fst, k ∉ SKIPPED_KEYS →
      ∃ ds, h5find fl k = some ds ∧ ds.shape = L.fixed_image_shape) := by
  obtain ⟨md, mis, fis, hs, hb, hLval⟩ := init_ok_elim h
  obtain ⟨_, _, h4, h5, h6, h7⟩ := stage1_parts hs
  have hmis : L.moving_image_shape = mis := by rw [hLval]
  have hfis : L.fixed_image_shape = fis := by rw [hLval]
  rw [hmis, hfis]
  obtain ⟨l3m, hm⟩ := get_image_shape_ok mi mis h4
  obtain ⟨l3f, hf⟩ := get_image_shape_ok fi fis h5
  obtain ⟨_, hml⟩ := get_image_shape_ok ml mis h6
  obtain ⟨_, hfl⟩ := get_image_shape_ok fl fis h7
  exact ⟨l3m, l3f, hm, hml, hf, hfl⟩

/-- Witness for `h5init_shapes_per_pair` at a concrete input. -/
theorem h5init_shapes_per_pair_witness : LW2.moving_image_shape.length = 3 :=
  (h5init_shapes_per_pair revShuffle miW2 miW2 mlW2 mlW2 7 true 0 1 LW2 (by decide)).1

/-- What each step of the generator loop yields, with a generalized start
index for the enumeration counter. -/
lemma genLoop_spec (key_dict : KeyDict) (mi fi ml fl : H5File) (r : ℕ → ℕ) :
    ∀ (ks : List String) (i : ℕ) (out : List GenItem),
      genLoop key_dict mi fi ml fl r i ks = .ok out →
      out.length = ks.length ∧
      ∀ j, j < ks.length →
        ∃ vs moving_image fixed_image moving_label fixed_label,
          dictGet key_dict (ks.getD j "") = .ok vs ∧
          0 < (sortStr vs).length ∧
          r (i + j) % (sortStr vs).length < (sortStr vs).length ∧
          h5get mi (ks.getD j "") = .ok moving_image ∧
          h5get fi (ks.getD j "") = .ok fixed_image ∧
          h5get ml ((sortStr vs).getD (r (i + j) % (sortStr vs).length) "") =
            .ok moving_label ∧
          h5get fl ((sortStr vs).getD (r (i + j) % (sortStr vs).length) "") =
            .ok fixed_label ∧
          out.getD j default =
            ((moving_image, fixed_image, moving_label), fixed_label,
             [((i + j : ℕ) : ℚ), ((r (i + j) % (sortStr vs).length : ℕ) : ℚ)]) := by
  intro ks
  induction ks with
  | nil =>
      intro i out h
      simp only [genLoop] at h
      cases Except.ok.inj h
      exact ⟨rfl, fun j hj => absurd hj (by simp)⟩
  | cons k rest ih =>
      intro i out h
      unfold genLoop at h
      cases hd : dictGet key_dict k with
      | error e =>
          rw [hd, exceptBind_err] at h
          simp at h
      | ok vs =>
          rw [hd, exceptBind_ok] at h
          by_cases h0 : (sortStr vs).length = 0
          · rw [if_pos h0] at h
            simp at h
          · rw [if_neg h0] at h
            cases hg1 : h5get mi k with
            | error e =>
                rw [hg1, exceptBind_err] at h
                simp at h
            | ok mImg =>
                rw [hg1, exceptBind_ok] at h
                cases hg2 : h5get ml ((sortStr vs).getD (r i % (sortStr vs).length) "") with
                | error e =>
                    rw [hg2, exceptBind_err] at h
                    simp at h
                | ok mLab =>
                    rw [hg2, exceptBind_ok] at h
                    cases hg3 : h5get fi k with
                    | error e =>
                        rw [hg3, exceptBind_err] at h
                        simp at h
                    | ok fImg =>
                        rw [hg3, exceptBind_ok] at h
                        cases hg4 : h5get fl
                            ((sortStr vs).getD (r i % (sortStr vs).length) "") with
                        | error e =>
                            rw [hg4, exceptBind_err] at h
                            simp at h
                        | ok fLab =>
                            rw [hg4, exceptBind_ok] at h
                            cases ht : genLoop key_dict mi fi ml fl r (i + 1) rest with
                            | error e =>
                                rw [ht, exceptBind_err] at h
                                simp at h
                            | ok tail =>
                                rw [ht, exceptBind_ok] at h
                                cases Except.ok.inj h
                                obtain ⟨ihlen, ihspec⟩ := ih (i + 1) tail ht
                                have hpos : 0 < (sortStr vs).length :=
                                  Nat.pos_of_ne_zero h0
                                constructor
                                · simp [ihlen]
                                · intro j hj
                                  cases j with
                                  | zero =>
                                      simp only [Nat.add_zero, List.getD_cons_zero]
                                      exact ⟨vs, mImg, fImg, mLab, fLab, hd, hpos,
                                        Nat.mod_lt _ hpos, hg1, hg3, hg2, hg4, rfl⟩
                                  | succ j' =>
                                      have hj' : j' < rest.length := by simpa using hj
                                      obtain ⟨vs', a1, a2, a3, a4, c1, c2, c3, c4, c5,
                                        c6, c7, c8⟩ := ihspec j' hj'
                                      simp only [List.getD_cons_succ]
                                      rw [show i + (j' + 1) = i + 1 + j' from by omega]
                                      exact ⟨vs', a1, a2, a3, a4, c1, c2, c3, c4, c5,
                                        c6, c7, c8⟩

/-- C9: `get_generator` yields exactly one tuple per key of `self.keys`, in
order; item j draws a label index uniformly within the range of the case's
sorted label-key list, reads `moving_label` and `fixed_label` under that same
drawn label key and `moving_image`/`fixed_image` under the case key, and
yields the indices array `[image_index, label_index]`. -/
theorem get_generator_spec (L : H5Loader) (r : ℕ → ℕ) (out : List GenItem)
    (h : get_generator L r = .ok out) :
    out.length = L.keys.length ∧
    ∀ j, j < L.keys.length →
      ∃ vs moving_image fixed_image moving_label fixed_label,
        dictGet L.key_dict (L.keys.getD j "") = .ok vs ∧
        0 < (sortStr vs).length ∧
        r j % (sortStr vs).length < (sortStr vs).length ∧
        h5get L.moving_image_filename (L.keys.getD j "") = .ok moving_image ∧
        h5get L.fixed_image_filename (L.keys.getD j "") = .ok fixed_image ∧
        h5get L.moving_label_filename
          ((sortStr vs).getD (r j % (sortStr vs).length) "") = .ok moving_label ∧
        h5get L.fixed_label_filename
          ((sortStr vs).getD (r j % (sortStr vs).length) "") = .ok fixed_label ∧
        out.getD j default =
          ((moving_image, fixed_image, moving_label), fixed_label,
           [(j : ℚ), ((r j % (sortStr vs).length : ℕ) : ℚ)]) := by
  obtain ⟨hlen, hspec⟩ :=
    genLoop_spec L.key_dict L.moving_image_filename L.fixed_image_filename
      L.moving_label_filename L.fixed_label_filename r L.keys 0 out h
  refine ⟨hlen, fun j hj => ?_⟩
  simpa using hspec j hj

/-- Witness for `get_generator_spec` on a one-case loader. -/
theorem get_generator_spec_witness :
    ([((dsA, dsA, dsA), dsA, ([0, 0] : List ℚ))] : List GenItem).length =
      LW.keys.length :=
  (get_generator_spec LW (fun _ => 5) [((dsA, dsA, dsA), dsA, [0, 0])] (by decide)).1

end DeepReg
